import Mathlib

/-!
Verification of the evidence fusion / rerank / grouping / offset-replay core of
the `tiic_law_chat` repository, as a shallow embedding in Lean 4.

Conventions used throughout:
* Python `float` scores are modelled as `Rat` (only ordering and equality of
  scores are exercised by the properties below, no float rounding).
* Python `int` values that may be negative (`top_k`, offsets) are modelled as
  `Int`.
* Python `None` is modelled as `Option.none`; a missing dict key is
  `Option.none` as well.
* Python `dict` objects are modelled as insertion-ordered association lists
  with Python update semantics (overwriting a key keeps its position, a new
  key is appended): see `dictSet`.
* Python `set` objects of node ids are modelled as `Finset String`.
* Python `sorted` is a stable sort by a total preorder; it is modelled by the
  stable `insertionSortB` (the stable sort of a list under a total preorder is
  unique, so any stable algorithm is extensionally the same function).
-/

namespace TiicLawChat

/-! ## Shared helpers -/

/-- Python `\s` on the ASCII range (the texts in play are ASCII). -/
def isPyWs (c : Char) : Bool :=
  c = ' ' || c = '\t' || c = '\n' || c = '\r' || c = '\x0b' || c = '\x0c'

/-- Python `str.strip()` on the character list. -/
def pyStripList (cs : List Char) : List Char :=
  ((cs.dropWhile isPyWs).reverse.dropWhile isPyWs).reverse

/-- Python `str.strip()`. -/
def pyStrip (s : String) : String := ⟨pyStripList s.data⟩

/-- Python `str.lower()` (ASCII case mapping). -/
def pyLower (s : String) : String := ⟨s.data.map Char.toLower⟩

/-- Python dict assignment `d[k] = v` on an insertion-ordered association
list: overwriting a key keeps its position, a new key is appended. -/
def dictSet {α : Type} {β : Type} [DecidableEq α] : List (α × β) → α → β → List (α × β)
  | [], k, v => [(k, v)]
  | p :: rest, k, v => if p.1 = k then (k, v) :: rest else p :: dictSet rest k v

/-- Stable insertion of `a` into `l`: `a` goes before the first element `b`
with `le a b`. -/
def orderedInsertB {α : Type} (le : α → α → Bool) (a : α) : List α → List α
  | [] => [a]
  | b :: l => if le a b then a :: b :: l else b :: orderedInsertB le a l

/-- Stable sort by the boolean total preorder `le`; models Python `sorted`. -/
def insertionSortB {α : Type} (le : α → α → Bool) : List α → List α
  | [] => []
  | a :: l => orderedInsertB le a (insertionSortB le l)

/-! ## Evaluator: `backend/pipelines/evaluator/keyword_recall.py` -/

/-- Embedding of the dataclass `_MetricRaw` from `keyword_recall.py`. -/
structure MetricRaw where
  keyword : String
  gt_nodes : Finset String
  kw_nodes : Finset String
  keyword_top_k : Int
  deriving DecidableEq

/-- Embedding of the fields of `KeywordRecallMetricView` that `_calc_metric`
fills in (omitting the constant `gt_mode="substring"` tag). -/
structure MetricView where
  keyword : String
  keyword_top_k : Int
  gt_total : Nat
  kw_total : Nat
  overlap : Nat
  recallVal : Option Rat
  precision : Option Rat
  capped : Bool
  missing_sample : List String
  extra_sample : List String
  deriving DecidableEq

/-- Embedding of `_sample(sorted_ids, n)` from `keyword_recall.py`:
empty for `n ≤ 0`, otherwise the first `n` elements. -/
def metricSample (sorted_ids : List String) (n : Int) : List String :=
  if n ≤ 0 then [] else sorted_ids.take n.toNat

/-- Embedding of `_calc_metric` from `keyword_recall.py`.  `gt_total`,
`kw_total` and `overlap` are set sizes; `recallVal`/`precision` are `none`
exactly when the code assigns Python `None`; `capped` mirrors
`bool(kw_total >= int(raw.keyword_top_k) and gt_total > kw_total)`;
the samples are sorted set differences truncated by `_sample`. -/
def calcMetric (raw : MetricRaw) (sample_n : Int) : MetricView :=
  let gt_total := raw.gt_nodes.card
  let kw_total := raw.kw_nodes.card
  let overlap := (raw.gt_nodes ∩ raw.kw_nodes).card
  let recallVal : Option Rat :=
    if gt_total = 0 then none else some ((overlap : Rat) / (gt_total : Rat))
  let precision : Option Rat :=
    if gt_total = 0 then
      (if kw_total = 0 then none else some 0)
    else
      (if kw_total = 0 then none else some ((overlap : Rat) / (kw_total : Rat)))
  let capped : Bool := decide ((kw_total : Int) ≥ raw.keyword_top_k ∧ gt_total > kw_total)
  let missing := (raw.gt_nodes \ raw.kw_nodes).sort (· ≤ ·)
  let extra := (raw.kw_nodes \ raw.gt_nodes).sort (· ≤ ·)
  { keyword := raw.keyword
    keyword_top_k := raw.keyword_top_k
    gt_total := gt_total
    kw_total := kw_total
    overlap := overlap
    recallVal := recallVal
    precision := precision
    capped := capped
    missing_sample := metricSample missing sample_n
    extra_sample := metricSample extra sample_n }

/-! ## Rerank engine: `backend/pipelines/retrieval/rerank.py`

The engine is modelled as a pure function of the call arguments plus one extra
parameter `RerankEnv` describing the behaviour of the external reranking
oracle (the LlamaIndex reranker): construction may raise (`buildError`,
carrying the exception class name), the constructed reranker may be absent
(`unavailable`), or construction succeeds and the oracle maps the prepared
text nodes to scored entries (`oracle`). -/

/-- Values stored in a `score_details` dict (Python is heterogeneous here:
bools, strings, ints, floats and `None`). -/
inductive DetailVal where
  | boolv : Bool → DetailVal
  | strv : String → DetailVal
  | intv : Int → DetailVal
  | ratv : Rat → DetailVal
  | nullv : DetailVal
  deriving DecidableEq

/-- Embedding of the `Candidate` record as used by `rerank.py` (the dataclass
itself lives in `pipelines/retrieval/types.py`, which is not part of the
sources; its fields are exactly the ones `_apply_rerank_result` constructs
and reads). -/
structure Candidate where
  node_id : String
  stage : String
  score : Rat
  score_details : List (String × DetailVal)
  excerpt : Option String
  page : Option Int
  start_offset : Option Int
  end_offset : Option Int
  meta : List (String × String)
  deriving DecidableEq

/-- Embedding of `_normalize_strategy`: lowercase/trim, unknown strategies
fall back to `"none"` with the fallback flag set. -/
def normalize_strategy (strategy : String) : String × Bool :=
  let s := pyLower (pyStrip strategy)
  if s = "none" || s = "llm" || s = "bge_reranker" then (s, false) else ("none", true)

/-- Python `str(model or default)`: `None` and `""` fall back to the default. -/
def strOr (model : Option String) (default : String) : String :=
  match model with
  | none => default
  | some s => if s = "" then default else s

/-- The `_TEXT_KEYS` tuple from `rerank.py`. -/
def TEXT_KEYS : List String :=
  ["text", "content", "node_text", "chunk_text", "raw_text", "page_text"]

/-- The meta-key scan inside `_extract_text`: the first key whose value is a
non-blank string wins. -/
def extract_text_from_meta : List String → List (String × String) → String × Option String
  | [], _ => ("", none)
  | k :: rest, meta =>
    match meta.lookup k with
    | some v => if pyStrip v ≠ "" then (v, some ("meta." ++ k)) else extract_text_from_meta rest meta
    | none => extract_text_from_meta rest meta

/-- Embedding of `_extract_text`: prefer a non-blank `excerpt`, else scan
`_TEXT_KEYS` in the meta dict, else no text. -/
def extract_text (c : Candidate) : String × Option String :=
  match c.excerpt with
  | some s =>
    if s ≠ "" ∧ pyStrip s ≠ "" then (s, some "excerpt")
    else extract_text_from_meta TEXT_KEYS c.meta
  | none => extract_text_from_meta TEXT_KEYS c.meta

/-- The sort key of `_stable_sort` and of the fallback ordering in `rerank`:
Python key `(-score, node_id)`, i.e. score descending with `node_id`
ascending as tie-break. -/
def candLE (a b : Candidate) : Bool :=
  decide (b.score < a.score ∨ (a.score = b.score ∧ a.node_id ≤ b.node_id))

/-- `candLE` lifted to the `(index, candidate)` pairs that `_stable_sort`
actually sorts (the key ignores the index). -/
def idxCandLE (a b : Nat × Candidate) : Bool := candLE a.2 b.2

/-- Embedding of `_stable_sort`: Python `sorted(enumerate(candidates), key=...)`. -/
def stable_sort (candidates : List Candidate) : List (Nat × Candidate) :=
  insertionSortB idxCandLE candidates.enum

/-- The nodes `_run_rerank` prepares for the oracle: candidates with a
non-empty extracted text, as `(candidate index, text, original score)`. -/
def rerank_text_nodes (candidates : List Candidate) : List (Nat × String × Rat) :=
  candidates.enum.filterMap fun p =>
    let t := (extract_text p.2).1
    if t = "" then none else some (p.1, t, p.2.score)

/-- The result-collection loop of `_run_rerank`: Python fills a dict
`scores[idx] = score` in iteration order (later duplicates overwrite). -/
def build_scores (entries : List (Nat × Rat)) : List (Nat × Rat) :=
  entries.foldl (fun d e => dictSet d e.1 e.2) []

/-- Embedding of `_run_rerank`: no texted candidate means no oracle call and
an empty score dict; otherwise the oracle output is collected into the dict. -/
def run_rerank_scores (query : String) (candidates : List Candidate)
    (oracle : String → List (Nat × String × Rat) → List (Nat × Rat)) : List (Nat × Rat) :=
  let nodes := rerank_text_nodes candidates
  if nodes.isEmpty then [] else build_scores (oracle query nodes)

/-- Behaviour of the external reranker for one `rerank` call. -/
inductive RerankEnv where
  | buildError (excName : String) : RerankEnv
  | unavailable : RerankEnv
  | oracle (f : String → List (Nat × String × Rat) → List (Nat × Rat)) : RerankEnv

/-- The seven `score_details` keys `_apply_rerank_result` writes, in update
order. -/
def rerank_detail_updates (applied : Bool) (scoreOpt : Option Rat) (strategy model : String)
    (rank : Nat) (fallback : Bool) (reason : Option String) : List (String × DetailVal) :=
  [("rerank_applied", .boolv applied),
   ("rerank_score", match scoreOpt with | some q => .ratv q | none => .nullv),
   ("rerank_strategy", .strv strategy),
   ("rerank_model", .strv model),
   ("rerank_rank", .intv (rank : Int)),
   ("rerank_fallback", .boolv fallback),
   ("rerank_fallback_reason", match reason with | some s => .strv s | none => .nullv)]

/-- Embedding of `_apply_rerank_result`: truncate the ordered
`(index, candidate)` list to `top_k`, rebuild each candidate with
`stage="rerank"`, the rerank score when the index was covered (the original
score otherwise), and the augmented `score_details`. -/
def apply_rerank_result (ordered : List (Nat × Candidate)) (scores : List (Nat × Rat))
    (strategy model : String) (fallback : Bool) (fallback_reason : Option String)
    (top_k : Int) : List Candidate :=
  (ordered.take top_k.toNat).enum.map fun q =>
    let rank := q.1 + 1
    let idx := q.2.1
    let cand := q.2.2
    let scoreOpt := scores.lookup idx
    let applied := scoreOpt.isSome
    let rerank_score : Rat := match scoreOpt with | some v => v | none => cand.score
    let details := (rerank_detail_updates applied scoreOpt strategy model rank fallback
      fallback_reason).foldl (fun d p => dictSet d p.1 p.2) cand.score_details
    { node_id := cand.node_id
      stage := "rerank"
      score := rerank_score
      score_details := details
      excerpt := cand.excerpt
      page := cand.page
      start_offset := cand.start_offset
      end_offset := cand.end_offset
      meta := cand.meta }

/-- The arguments a branch of `rerank` hands to `_apply_rerank_result`. -/
structure RerankCall where
  ordered : List (Nat × Candidate)
  scores : List (Nat × Rat)
  strategy : String
  model : String
  fallback : Bool
  fallback_reason : Option String

/-- The branch structure of `rerank` after the empty-input guard; each source
branch ends in an `_apply_rerank_result` call and is rendered here as the
corresponding `RerankCall`. -/
def rerank_call (query : String) (candidates : List Candidate) (strategy : String)
    (model : Option String) (env : RerankEnv) : RerankCall :=
  let ns := normalize_strategy strategy
  let normalized := ns.1
  let fallback := ns.2
  if normalized = "none" then
    ⟨stable_sort candidates, [], normalized, strOr model "none", fallback, none⟩
  else
    match env with
    | .buildError excName =>
      ⟨stable_sort candidates, [], "none", strOr model "none", true,
        some ("rerank_import_error:" ++ excName)⟩
    | .unavailable =>
      ⟨stable_sort candidates, [], "none", strOr model "none", true,
        some "reranker_unavailable"⟩
    | .oracle f =>
      let modelName :=
        if normalized = "bge_reranker" then strOr model "BAAI/bge-reranker-large"
        else strOr model "llm"
      let scores := run_rerank_scores query candidates f
      if scores.isEmpty then
        ⟨stable_sort candidates, [], "none", strOr model modelName, true,
          some "rerank_no_text"⟩
      else
        let rerankedIdx := scores.map Prod.fst
        let reranked := rerankedIdx.filterMap fun idx => (candidates[idx]?).map fun c => (idx, c)
        let rerankedSorted := insertionSortB (fun a b =>
          decide (((scores.lookup b.1).getD 0) < ((scores.lookup a.1).getD 0) ∨
            (((scores.lookup a.1).getD 0) = ((scores.lookup b.1).getD 0) ∧
              a.2.node_id ≤ b.2.node_id))) reranked
        let remaining := candidates.enum.filter fun p => !(rerankedIdx.contains p.1)
        let remainingSorted := insertionSortB idxCandLE remaining
        ⟨rerankedSorted ++ remainingSorted, scores, normalized, strOr model modelName,
          fallback, none⟩

/-- Embedding of `rerank`: empty output for `top_k ≤ 0` or no candidates,
otherwise the branch-selected `_apply_rerank_result` call. -/
def rerank (query : String) (candidates : List Candidate) (strategy : String)
    (top_k : Int) (model : Option String) (env : RerankEnv) : List Candidate :=
  if top_k ≤ 0 ∨ candidates = [] then []
  else
    let c := rerank_call query candidates strategy model env
    apply_rerank_result c.ordered c.scores c.strategy c.model c.fallback c.fallback_reason top_k

/-- A candidate with no usable text, shared by the concrete rerank scenarios. -/
def candA : Candidate :=
  ⟨"n1", "fused", 1, [], none, none, none, none, []⟩

/-- A second text-less candidate with a lower score. -/
def candB : Candidate :=
  ⟨"n2", "fused", 0, [], none, none, none, none, []⟩

/-- An oracle environment whose reranker always returns no scored nodes. -/
def envEmpty : RerankEnv := .oracle fun _ _ => []

/-- The fields of a rebuilt candidate that come through unchanged from the
input candidate in a fallback (empty score dict) rerank. -/
def candCore (c : Candidate) :
    String × Rat × Option String × Option Int × Option Int × Option Int ×
      List (String × String) :=
  (c.node_id, c.score, c.excerpt, c.page, c.start_offset, c.end_offset, c.meta)

/-- The three `score_details` keys on which a forced-fallback `rerank` output
may legitimately differ from the plain `strategy="none"` output. -/
def maskKeys : List String := ["rerank_model", "rerank_fallback", "rerank_fallback_reason"]

/-- Blank out the values at `maskKeys` (keys and positions are kept). -/
def maskDetails (d : List (String × DetailVal)) : List (String × DetailVal) :=
  d.map fun p => if p.1 ∈ maskKeys then (p.1, .nullv) else p

/-- A candidate with the `maskKeys` detail values blanked out. -/
def maskCand (c : Candidate) : Candidate :=
  { c with score_details := maskDetails c.score_details }

/-! ## Locator index: `backend/utils/artifacts.py` -/

/-- Value of a run of decimal digits, as Python `int(...)` computes it. -/
def digitsToNat (ds : List Char) : Nat :=
  ds.foldl (fun n c => 10 * n + (c.toNat - 48)) 0

/-- Case-insensitive literal match of `pat` at the head of `cs`; returns the
remaining characters on success. -/
def matchCI : List Char → List Char → Option (List Char)
  | [], cs => some cs
  | _ :: _, [] => none
  | p :: ps, c :: cs => if c.toLower = p.toLower then matchCI ps cs else none

/-- One attempt of the `_PAGE_MARK_RE` regex
(`<!--\s*page:\s*(\d+)\s*-->`, IGNORECASE) at the head of `cs`; returns
`(page number, match length)`.  The pattern is deterministic: the greedy
`\d+`/`\s*` runs are maximal because digits, whitespace and `-` are disjoint. -/
def match_page_mark (cs : List Char) : Option (Nat × Nat) :=
  match matchCI "<!--".data cs with
  | none => none
  | some r1 =>
    let r2 := r1.dropWhile isPyWs
    match matchCI "page:".data r2 with
    | none => none
    | some r3 =>
      let r4 := r3.dropWhile isPyWs
      let digits := r4.takeWhile Char.isDigit
      if digits.isEmpty then none
      else
        let r5 := r4.dropWhile Char.isDigit
        let r6 := r5.dropWhile isPyWs
        match matchCI "-->".data r6 with
        | none => none
        | some r7 => some (digitsToNat digits, cs.length - r7.length)

/-- `re.finditer` over the page-mark pattern: left-to-right, non-overlapping;
yields `(page number, match start)`.  The fuel argument (always at least the
remaining length plus one) makes the recursion structural; every step consumes
at least one character. -/
def find_page_marks : Nat → Nat → List Char → List (Nat × Nat)
  | 0, _, _ => []
  | _ + 1, _, [] => []
  | fuel + 1, pos, c :: rest =>
    match match_page_mark (c :: rest) with
    | some pn => (pn.1, pos) :: find_page_marks fuel (pos + pn.2) (List.drop (pn.2 - 1) rest)
    | none => find_page_marks fuel (pos + 1) rest

/-- Embedding of `build_page_start_index`: map each marked page number to the
match start (later duplicates overwrite), `{1: 0}` when no marker matches. -/
def build_page_start_index (md : String) : List (Int × Nat) :=
  let marks := find_page_marks (md.data.length + 1) 0 md.data
  if marks.isEmpty then [((1 : Int), (0 : Nat))]
  else marks.foldl (fun d m => dictSet d (Int.ofNat m.1) m.2) []

/-- The fields of a node dict that `normalize_offsets_to_page_local` reads or
writes.  `page`/`start_offset`/`end_offset` are the successfully
`int(...)`-coerced values (`none` covers both a missing key and a value the
coercion rejects, which the code treats the same way for `page` and leaves
untouched for offsets). -/
structure NodeRec where
  page : Option Int
  start_offset : Option Int
  end_offset : Option Int
  meta_data : Option (List (String × String))
  meta : Option (List (String × String))
  deriving DecidableEq

/-- Python truthiness of an optional dict: an absent or empty dict is falsy. -/
def truthyDict (o : Option (List (String × String))) : Option (List (String × String)) :=
  match o with
  | some l => if l.isEmpty then none else some l
  | none => none

/-- Python `dict.setdefault`. -/
def setdefault (d : List (String × String)) (k v : String) : List (String × String) :=
  if (d.lookup k).isSome then d else d ++ [(k, v)]

/-- The per-node body of `normalize_offsets_to_page_local`: nodes without a
usable page, or whose page is not in the index, pass through untouched;
otherwise offsets are rewritten to `max(0, offset - base)` and
`meta_data.offset_mode` defaults to `"page_local"`
(`dict(d.get("meta_data") or d.get("meta") or {})`). -/
def convert_node (page_start : List (Int × Nat)) (n : NodeRec) : NodeRec :=
  match n.page with
  | none => n
  | some p =>
    match page_start.lookup p with
    | none => n
    | some base =>
      let s2 := match n.start_offset with
        | none => none
        | some s => some (max 0 (s - (base : Int)))
      let e2 := match n.end_offset with
        | none => none
        | some e => some (max 0 (e - (base : Int)))
      let m := setdefault ((truthyDict n.meta_data).getD ((truthyDict n.meta).getD []))
        "offset_mode" "page_local"
      { n with start_offset := s2, end_offset := e2, meta_data := some m }

/-- Embedding of `normalize_offsets_to_page_local` (the empty-index fallback
branch is kept although `build_page_start_index` never returns an empty map). -/
def normalize_offsets_to_page_local (node_dicts : List NodeRec) (markdown : String) :
    List NodeRec :=
  let page_start := build_page_start_index markdown
  let page_start := if page_start.isEmpty then [((1 : Int), (0 : Nat))] else page_start
  node_dicts.map (convert_node page_start)

/-- A document text whose page 2 starts at absolute offset 1. -/
def mdPages : String := "x<!-- page: 2 -->abc"

/-- A node on page 2 with absolute offsets 6..8 in `mdPages`. -/
def nodeP2 : NodeRec := ⟨some 2, some 6, some 8, none, none⟩

/-- A node on page 1 with offsets 3..5 (for marker-less documents). -/
def nodeP1 : NodeRec := ⟨some 1, some 3, some 5, none, none⟩

/-! ## Evidence grouping (spec-modelled)

`group_evidence_hits` lives in `backend/utils/evidence.py`, which is not among
the sources; only its gate
(`playground/fastapi_gate/retrieval_strategy/evidence_grouping_gate.py`) is.
The definitions below are modelled from the spec, section 4.2. -/

/-- The raw hit shape consumed by the grouping engine (spec, section 3);
a missing `node_id`/`document_id` is the empty string, `page = none` is an
unknown page. -/
structure RawHit where
  node_id : String
  document_id : String
  page : Option Int
  source : String
  file_id : String
  deriving DecidableEq

/-- The `meta.stats` counters of the grouping output (spec, section 4.2
step 8). -/
structure GroupStats where
  total_hits_in : Nat
  total_hits_used : Nat
  dropped_missing_node_id : Nat
  dropped_missing_document_id : Nat
  unknown_page_count : Nat
  deduped_node_count : Nat
  deriving DecidableEq

/-- Running state of the grouping fold: admitted documents in first-seen
order, the source → document → page-key → node-id tree, and the counters. -/
structure GroupState where
  admitted : List String
  tree : List (String × List (String × List (String × List String)))
  used : Nat
  dropped_node : Nat
  dropped_doc : Nat
  unknown : Nat
  deduped : Nat

/-- The page bucket key: the stringified page number, or `"_"` for an unknown
page (spec, section 3). -/
def pageKeyOf (page : Option Int) : String :=
  match page with
  | some p => toString p
  | none => "_"

/-- Total admitted node count across the pages of one `(source, document)`
pair (spec, section 4.2 step 5). -/
def nodes_count (pages : List (String × List String)) : Nat :=
  (pages.map (fun pb => pb.2.length)).sum

/-- Modelled from the spec: one hit of the processing order of
`group_evidence_hits` (`backend/utils/evidence.py`, missing from the
sources), spec section 4.2 steps 1-6: drop-and-count missing ids (`node_id`
checked first), admit the first `max_documents` distinct documents, count
unknown pages at bucketing time, dedup within the exact bucket, then the
node cap, then the page cap. -/
def group_step (max_documents max_nodes max_pages : Nat) (st : GroupState) (h : RawHit) :
    GroupState :=
  if h.node_id = "" then { st with dropped_node := st.dropped_node + 1 }
  else if h.document_id = "" then { st with dropped_doc := st.dropped_doc + 1 }
  else
    let admitted2 :=
      if h.document_id ∈ st.admitted then some st.admitted
      else if st.admitted.length < max_documents then some (st.admitted ++ [h.document_id])
      else none
    match admitted2 with
    | none => st
    | some adm =>
      let key := pageKeyOf h.page
      let unknown2 := if h.page = none then st.unknown + 1 else st.unknown
      let docb := (st.tree.lookup h.source).getD []
      let pages := (docb.lookup h.document_id).getD []
      let st2 := { st with admitted := adm, unknown := unknown2 }
      match pages.lookup key with
      | some nodes =>
        if h.node_id ∈ nodes then { st2 with deduped := st2.deduped + 1 }
        else if max_nodes ≤ nodes_count pages then st2
        else
          { st2 with
            tree := dictSet st2.tree h.source
              (dictSet docb h.document_id (dictSet pages key (nodes ++ [h.node_id])))
            used := st2.used + 1 }
      | none =>
        if max_nodes ≤ nodes_count pages then st2
        else if max_pages ≤ pages.length then st2
        else
          { st2 with
            tree := dictSet st2.tree h.source
              (dictSet docb h.document_id (pages ++ [(key, [h.node_id])]))
            used := st2.used + 1 }

/-- The grouping output tree (spec, section 3: `GroupedEvidence`). -/
structure GroupedEvidence where
  document_ids : List String
  by_source : List (String × List (String × List (String × List String)))
  stats : GroupStats
  deriving DecidableEq

/-- Modelled from the spec: `group_evidence_hits`
(`backend/utils/evidence.py`, missing from the sources), spec section 4.2:
fold the hits in input order through `group_step` and report the admitted
documents, the tree, and the audit stats. -/
def group_evidence_hits (hits : List RawHit)
    (max_documents max_nodes_per_document max_pages_per_document : Nat) : GroupedEvidence :=
  let final := hits.foldl
    (group_step max_documents max_nodes_per_document max_pages_per_document)
    ⟨[], [], 0, 0, 0, 0, 0⟩
  { document_ids := final.admitted
    by_source := final.tree
    stats := ⟨hits.length, final.used, final.dropped_node, final.dropped_doc,
      final.unknown, final.deduped⟩ }

/-- The 12-hit fixture built by `_build_hits` in
`playground/fastapi_gate/retrieval_strategy/evidence_grouping_gate.py`. -/
def gate_hits : List RawHit :=
  [⟨"n1", "doc1", some 1, "keyword", "f1"⟩,
   ⟨"n2", "doc1", some 1, "keyword", "f1"⟩,
   ⟨"n2", "doc1", some 1, "keyword", "f1"⟩,
   ⟨"n3", "doc1", some 2, "keyword", "f1"⟩,
   ⟨"n8", "doc1", none, "keyword", "f1"⟩,
   ⟨"n9", "doc1", some 2, "keyword", "f1"⟩,
   ⟨"n4", "doc2", some 1, "reranked", "f2"⟩,
   ⟨"n5", "doc2", some 2, "reranked", "f2"⟩,
   ⟨"n6", "doc2", some 3, "reranked", "f2"⟩,
   ⟨"n7", "doc3", some 1, "keyword", "f3"⟩,
   ⟨"n_missing_doc", "", some 1, "keyword", "f1"⟩,
   ⟨"", "doc1", some 1, "keyword", "f1"⟩]

/-! ## Replay fuzzy match:
`playground/fastapi_gate/retrieval_strategy/offset_replay_gate.py` -/

/-- `re.sub(r"\s+", " ", s)`: collapse each whitespace run to one space.  The
flag records whether the previous character belonged to a run. -/
def collapseWsAux : List Char → Bool → List Char
  | [], _ => []
  | c :: rest, prevWs =>
    if isPyWs c then
      (if prevWs then collapseWsAux rest true else ' ' :: collapseWsAux rest true)
    else c :: collapseWsAux rest false

/-- Embedding of `_norm_text`: strip, lowercase, collapse whitespace runs. -/
def norm_text (s : String) : String :=
  ⟨collapseWsAux ((pyStripList s.data).map Char.toLower) false⟩

/-- Python `s.split(" ")` (split on every single space). -/
def splitOnSpace : List Char → List Char → List String
  | [], acc => [⟨acc.reverse⟩]
  | c :: rest, acc =>
    if c = ' ' then (⟨acc.reverse⟩ : String) :: splitOnSpace rest []
    else splitOnSpace rest (c :: acc)

/-- The token sets of `_fuzzy_match`: distinct space-separated tokens of
length at least 4. -/
def tokens4 (s : String) : List String :=
  ((splitOnSpace s.data []).filter (fun t => 4 ≤ t.length)).dedup

/-- Size of the intersection of the two token sets of `_fuzzy_match`. -/
def sharedTokenCount (a b : String) : Nat :=
  ((tokens4 a).filter (fun t => t ∈ tokens4 b)).length

/-- Embedding of `_fuzzy_match`: normalize both strings, fail when either
normalizes to empty, pass on mutual substring containment, else on a shared
token count of at least 3. -/
def fuzzy_match (slice_text ref_text : String) : Bool :=
  let a := norm_text slice_text
  let b := norm_text ref_text
  if a = "" || b = "" then false
  else if decide (b.data <:+: a.data) || decide (a.data <:+: b.data) then true
  else decide (3 ≤ sharedTokenCount a b)

/-! ## Helper lemmas -/

theorem perm_orderedInsertB {α : Type} (le : α → α → Bool) (a : α) (l : List α) :
    (orderedInsertB le a l).Perm (a :: l) := by
  induction l with
  | nil => exact List.Perm.refl _
  | cons b l ih =>
    by_cases h : le a b
    · simp [orderedInsertB, h]
    · simp only [orderedInsertB, if_neg h]
      exact (ih.cons b).trans (List.Perm.swap a b l)

theorem perm_insertionSortB {α : Type} (le : α → α → Bool) (l : List α) :
    (insertionSortB le l).Perm l := by
  induction l with
  | nil => exact List.Perm.refl _
  | cons a l ih => exact (perm_orderedInsertB le a _).trans (ih.cons a)

theorem pairwise_orderedInsertB {α : Type} (le : α → α → Bool)
    (htot : ∀ a b, le a b = true ∨ le b a = true)
    (htrans : ∀ a b c, le a b = true → le b c = true → le a c = true)
    (a : α) (l : List α) (hl : l.Pairwise (fun x y => le x y = true)) :
    (orderedInsertB le a l).Pairwise (fun x y => le x y = true) := by
  induction l with
  | nil => simp [orderedInsertB]
  | cons b l ih =>
    rcases List.pairwise_cons.mp hl with ⟨hb, hl2⟩
    by_cases h : le a b
    · simp only [orderedInsertB, if_pos h]
      refine List.pairwise_cons.mpr ⟨?_, hl⟩
      intro x hx
      rcases List.mem_cons.mp hx with rfl | hx
      · exact h
      · exact htrans a b x h (hb x hx)
    · simp only [orderedInsertB, if_neg h]
      refine List.pairwise_cons.mpr ⟨?_, ih hl2⟩
      intro x hx
      rcases List.mem_cons.mp ((perm_orderedInsertB le a l).mem_iff.mp hx) with h2 | hx2
      · subst h2
        exact (htot _ _).resolve_left h
      · exact hb x hx2

theorem pairwise_insertionSortB {α : Type} (le : α → α → Bool)
    (htot : ∀ a b, le a b = true ∨ le b a = true)
    (htrans : ∀ a b c, le a b = true → le b c = true → le a c = true)
    (l : List α) :
    (insertionSortB le l).Pairwise (fun x y => le x y = true) := by
  induction l with
  | nil => simp [insertionSortB]
  | cons a l ih => exact pairwise_orderedInsertB le htot htrans a _ ih

theorem candLE_total (a b : Candidate) : candLE a b = true ∨ candLE b a = true := by
  simp only [candLE, decide_eq_true_eq]
  rcases lt_trichotomy a.score b.score with h | h | h
  · exact Or.inr (Or.inl h)
  · rcases le_total a.node_id b.node_id with h2 | h2
    · exact Or.inl (Or.inr ⟨h, h2⟩)
    · exact Or.inr (Or.inr ⟨h.symm, h2⟩)
  · exact Or.inl (Or.inl h)

theorem candLE_trans (a b c : Candidate) (h1 : candLE a b = true) (h2 : candLE b c = true) :
    candLE a c = true := by
  simp only [candLE, decide_eq_true_eq] at h1 h2 ⊢
  rcases h1 with h1 | ⟨h1e, h1n⟩
  · rcases h2 with h2 | ⟨h2e, h2n⟩
    · exact Or.inl (h2.trans h1)
    · exact Or.inl (h2e ▸ h1)
  · rcases h2 with h2 | ⟨h2e, h2n⟩
    · exact Or.inl (h1e ▸ h2)
    · exact Or.inr ⟨h1e.trans h2e, h1n.trans h2n⟩

theorem idxCandLE_total (a b : Nat × Candidate) : idxCandLE a b = true ∨ idxCandLE b a = true :=
  candLE_total a.2 b.2

theorem idxCandLE_trans (a b c : Nat × Candidate) (h1 : idxCandLE a b = true)
    (h2 : idxCandLE b c = true) : idxCandLE a c = true :=
  candLE_trans a.2 b.2 c.2 h1 h2

theorem apply_rerank_result_length (o : List (Nat × Candidate)) (s : List (Nat × Rat))
    (st m : String) (fb : Bool) (r : Option String) (k : Int) :
    (apply_rerank_result o s st m fb r k).length = min k.toNat o.length := by
  simp [apply_rerank_result]

theorem apply_rerank_result_stages (o : List (Nat × Candidate)) (s : List (Nat × Rat))
    (st m : String) (fb : Bool) (r : Option String) (k : Int) :
    (apply_rerank_result o s st m fb r k).map Candidate.stage =
      List.replicate (apply_rerank_result o s st m fb r k).length "rerank" := by
  simp only [apply_rerank_result, List.map_map, List.length_map]
  exact List.map_const' _ "rerank"

theorem stable_sort_length (candidates : List Candidate) :
    (stable_sort candidates).length = candidates.length := by
  rw [stable_sort, (perm_insertionSortB idxCandLE _).length_eq, List.enum_length]

theorem apply_rerank_result_map_core (o : List (Nat × Candidate))
    (st m : String) (fb : Bool) (r : Option String) (k : Int) :
    (apply_rerank_result o [] st m fb r k).map candCore =
      ((o.take k.toNat).map Prod.snd).map candCore := by
  simp only [apply_rerank_result, List.lookup_nil, List.map_map]
  conv_rhs => rw [← List.enum_map_snd (o.take k.toNat), List.map_map]
  rfl

theorem lookup_dictSet_self {α : Type} {β : Type} [DecidableEq α] [BEq α] [LawfulBEq α]
    (d : List (α × β)) (k : α) (v : β) : (dictSet d k v).lookup k = some v := by
  induction d with
  | nil => simp [dictSet, List.lookup]
  | cons p rest ih =>
    obtain ⟨p1, p2⟩ := p
    by_cases h : p1 = k
    · subst h
      simp [dictSet, List.lookup_cons]
    · simp only [dictSet, if_neg h, List.lookup_cons]
      have hbe : (k == p1) = false := beq_eq_false_iff_ne.mpr (Ne.symm h)
      simp [hbe, ih]

theorem lookup_dictSet_ne {α : Type} {β : Type} [DecidableEq α] [BEq α] [LawfulBEq α]
    (d : List (α × β)) (k k2 : α) (v : β) (hne : k2 ≠ k) :
    (dictSet d k v).lookup k2 = d.lookup k2 := by
  have hbe : (k2 == k) = false := beq_eq_false_iff_ne.mpr hne
  induction d with
  | nil => simp [dictSet, List.lookup_cons, hbe]
  | cons p rest ih =>
    obtain ⟨p1, p2⟩ := p
    by_cases h : p1 = k
    · subst h
      simp [dictSet, List.lookup_cons, hbe]
    · simp only [dictSet, if_neg h, List.lookup_cons]
      cases hbe2 : (k2 == p1) <;> simp [ih]

theorem maskPair_fst (p : String × DetailVal) :
    ((if p.1 ∈ maskKeys then (p.1, DetailVal.nullv) else p)).1 = p.1 := by
  split <;> rfl

theorem maskDetails_dictSet_congr (k : String) (v w : DetailVal)
    (x y : List (String × DetailVal))
    (hxy : maskDetails x = maskDetails y) (hvw : k ∈ maskKeys ∨ v = w) :
    maskDetails (dictSet x k v) = maskDetails (dictSet y k w) := by
  induction x generalizing y with
  | nil =>
    have hy : y = [] := by
      cases y with
      | nil => rfl
      | cons q ys => simp [maskDetails] at hxy
    subst hy
    rcases hvw with hk | rfl
    · simp [dictSet, maskDetails, hk]
    · rfl
  | cons p xs ih =>
    cases y with
    | nil => simp [maskDetails] at hxy
    | cons q ys =>
      simp only [maskDetails, List.map_cons, List.cons.injEq] at hxy
      obtain ⟨hpq, hxs⟩ := hxy
      have hfst : p.1 = q.1 := by
        have := congrArg Prod.fst hpq
        rwa [maskPair_fst, maskPair_fst] at this
      by_cases h : p.1 = k
      · simp only [dictSet, if_pos h, if_pos (hfst ▸ h), maskDetails, List.map_cons]
        rcases hvw with hk | rfl
        · simp [hk, hxs]
        · simp [hxs]
      · simp only [dictSet, if_neg h, if_neg (hfst ▸ h), maskDetails, List.map_cons]
        refine congrArg₂ _ ?_ ?_
        · exact hpq
        · exact ih ys hxs

theorem apply_rerank_result_mask_congr (o : List (Nat × Candidate)) (st : String)
    (m1 m2 : String) (fb1 fb2 : Bool) (r1 r2 : Option String) (k : Int) :
    (apply_rerank_result o [] st m1 fb1 r1 k).map maskCand =
      (apply_rerank_result o [] st m2 fb2 r2 k).map maskCand := by
  simp only [apply_rerank_result, List.map_map]
  apply List.map_congr_left
  intro q hq
  show maskCand _ = maskCand _
  simp only [maskCand, rerank_detail_updates, List.foldl_cons, List.foldl_nil]
  refine congrArg (fun d => Candidate.mk _ _ _ d _ _ _ _ _) ?_
  exact maskDetails_dictSet_congr _ _ _ _ _
    (maskDetails_dictSet_congr _ _ _ _ _
      (maskDetails_dictSet_congr _ _ _ _ _
        (maskDetails_dictSet_congr _ _ _ _ _
          (maskDetails_dictSet_congr _ _ _ _ _
            (maskDetails_dictSet_congr _ _ _ _ _
              (maskDetails_dictSet_congr _ _ _ _ _ rfl (Or.inr rfl))
              (Or.inr rfl))
            (Or.inr rfl))
          (Or.inl (by decide)))
        (Or.inr rfl))
      (Or.inl (by decide)))
    (Or.inl (by decide))

theorem apply_rerank_result_fallback_details (o : List (Nat × Candidate))
    (s : List (Nat × Rat)) (st m reason : String) (k : Int) (c : Candidate)
    (hc : c ∈ apply_rerank_result o s st m true (some reason) k) :
    c.score_details.lookup "rerank_fallback" = some (DetailVal.boolv true) ∧
    c.score_details.lookup "rerank_fallback_reason" = some (DetailVal.strv reason) := by
  simp only [apply_rerank_result, List.mem_map] at hc
  obtain ⟨q, -, rfl⟩ := hc
  simp only [rerank_detail_updates, List.foldl_cons, List.foldl_nil]
  constructor
  · rw [lookup_dictSet_ne _ _ _ _ (by decide), lookup_dictSet_self]
  · rw [lookup_dictSet_self]

theorem string_append_ne_empty_left (s t : String) (hs : s ≠ "") : s ++ t ≠ "" := by
  intro h
  apply hs
  have h2 := String.ext_iff.mp h
  rw [String.data_append] at h2
  exact String.ext_iff.mpr (List.append_eq_nil.mp h2).1

theorem rerank_forced_fallback_aux (query : String) (candidates : List Candidate)
    (strategy : String) (top_k : Int) (model : Option String) (env : RerankEnv)
    (mdl reason : String) (hreason : reason ≠ "")
    (hmain : rerank query candidates strategy top_k model env =
      apply_rerank_result (stable_sort candidates) [] "none" mdl true (some reason) top_k)
    (hbase : rerank query candidates "none" top_k model env =
      apply_rerank_result (stable_sort candidates) [] "none" (strOr model "none")
        false none top_k) :
    (rerank query candidates strategy top_k model env).map maskCand =
      (rerank query candidates "none" top_k model env).map maskCand ∧
    ∀ c ∈ rerank query candidates strategy top_k model env,
      c.score_details.lookup "rerank_fallback" = some (DetailVal.boolv true) ∧
      ∃ s, c.score_details.lookup "rerank_fallback_reason" = some (DetailVal.strv s) ∧
        s ≠ "" := by
  constructor
  · rw [hmain, hbase]
    exact apply_rerank_result_mask_congr _ _ _ _ _ _ _ _ _
  · intro c hc
    rw [hmain] at hc
    obtain ⟨h1, h2⟩ := apply_rerank_result_fallback_details _ _ _ _ _ _ _ hc
    exact ⟨h1, reason, h2, hreason⟩

theorem dictSet_ne_nil {α β : Type} [DecidableEq α] (d : List (α × β)) (k : α) (v : β) :
    dictSet d k v ≠ [] := by
  cases d with
  | nil => simp [dictSet]
  | cons p rest =>
    by_cases h : p.1 = k <;> simp [dictSet, h]

theorem foldl_dictSet_ne_nil {α β γ : Type} [DecidableEq α]
    (f : γ → α) (g : γ → β) (l : List γ) (d : List (α × β)) (hd : d ≠ []) :
    (l.foldl (fun acc m => dictSet acc (f m) (g m)) d) ≠ [] := by
  induction l generalizing d with
  | nil => exact hd
  | cons m ms ih => exact ih _ (dictSet_ne_nil _ _ _)

theorem build_page_start_index_ne_nil (md : String) : build_page_start_index md ≠ [] := by
  unfold build_page_start_index
  cases h : find_page_marks (md.data.length + 1) 0 md.data with
  | nil => simp [h]
  | cons m ms =>
    simp only [h, List.isEmpty_cons, Bool.false_eq_true, if_false, List.foldl_cons]
    exact foldl_dictSet_ne_nil _ _ ms _ (dictSet_ne_nil _ _ _)

theorem setdefault_ne_nil (d : List (String × String)) (k v : String) :
    setdefault d k v ≠ [] := by
  unfold setdefault
  split
  · rename_i h
    intro hd
    rw [hd] at h
    simp [List.lookup] at h
  · simp

theorem lookup_setdefault_isSome (d : List (String × String)) (k v : String) :
    ((setdefault d k v).lookup k).isSome := by
  unfold setdefault
  split
  · rename_i h
    exact h
  · rename_i h
    rw [List.lookup_append]
    rw [Option.not_isSome_iff_eq_none] at h
    simp [h, List.lookup]

theorem setdefault_idem (d : List (String × String)) (k v : String) :
    setdefault (setdefault d k v) k v = setdefault d k v := by
  conv_lhs => rw [setdefault]
  simp [lookup_setdefault_isSome]

theorem truthyDict_setdefault (d : List (String × String)) (k v : String) :
    truthyDict (some (setdefault d k v)) = some (setdefault d k v) := by
  simp [truthyDict, List.isEmpty_eq_false.mpr (setdefault_ne_nil d k v)]

theorem convert_node_idem (ps : List (Int × Nat)) (n : NodeRec)
    (h : ∀ p, n.page = some p → ∀ b, ps.lookup p = some b → b = 0) :
    convert_node ps (convert_node ps n) = convert_node ps n := by
  obtain ⟨pg, so, eo, md0, mt⟩ := n
  cases pg with
  | none => rfl
  | some p =>
    rcases hb : ps.lookup p with _ | b
    · simp [convert_node, hb]
    · have hb0 : b = 0 := h p rfl b hb
      subst hb0
      cases so <;> cases eo <;>
        simp [convert_node, hb, truthyDict_setdefault, setdefault_idem,
          max_eq_right (le_max_left (0 : Int) _), sub_zero]


/-! ## Claim C1 -/

/-- Counterexample for claim C1: the claim says the recall returned by
`_calc_metric` is `1.0` whenever the ground-truth set is empty, but the code
assigns Python `None` in that branch: at `gt_nodes = ∅`, `kw_nodes = {"a"}`,
`keyword_top_k = 5` the returned recall is not `1.0`. -/
theorem calc_metric_empty_gt_recall_not_one :
    (calcMetric ⟨"k", ∅, {"a"}, 5⟩ 20).recallVal ≠ some 1 := by
  decide

/-- Claim C1 (amended): for every keyword, keyword-hit set, configured top-k
and sample size, when the ground-truth node set is empty `_calc_metric`
returns `recall = None` (null), regardless of the contents of the keyword-hit
set. -/
theorem calc_metric_empty_gt_recall_null
    (keyword : String) (kw : Finset String) (top_k : Int) (n : Int) :
    (calcMetric ⟨keyword, ∅, kw, top_k⟩ n).recallVal = none := by
  simp [calcMetric]

/-! ## Claim C2 -/

/-- Counterexample for claim C2: `_apply_rerank_result` stamps every output
candidate with `stage = "rerank"`, not `stage = "reranked"` as the claim
states: a one-candidate `strategy="none"` call returns stage list
`["rerank"]`, refuting the universally quantified stage clause. -/
theorem rerank_stage_counterexample :
    (rerank "q" [candA] "none" 1 none envEmpty).map Candidate.stage = ["rerank"] ∧
      ¬ ∀ c ∈ rerank "q" [candA] "none" 1 none envEmpty, c.stage = "reranked" := by
  decide

/-- Claim C2 (amended): for every call of `rerank` -- any query, candidate
list, strategy, `top_k`, model and oracle behaviour -- the returned list has
length at most `max(top_k, 0)` and every returned candidate carries
`stage = "rerank"` (expressed as: the stage projection is a constant
`"rerank"` list). -/
theorem rerank_length_stage (query : String) (candidates : List Candidate)
    (strategy : String) (top_k : Int) (model : Option String) (env : RerankEnv) :
    (rerank query candidates strategy top_k model env).length ≤ top_k.toNat ∧
    (rerank query candidates strategy top_k model env).map Candidate.stage =
      List.replicate (rerank query candidates strategy top_k model env).length "rerank" := by
  unfold rerank
  split
  · simp
  · constructor
    · rw [apply_rerank_result_length]
      exact min_le_left _ _
    · exact apply_rerank_result_stages _ _ _ _ _ _ _

/-! ## Claim C3 -/

/-- Claim C3: for every candidate list and every `top_k > 0`, `rerank` with
strategy `"none"` returns the candidates (their passthrough fields projected
by `candCore`) as a prefix of length `min(top_k, len(candidates))` of a
permutation of the input that is sorted non-increasing by score with ties
broken by ascending `node_id` (the `candLE` order); and for `top_k ≤ 0` or an
empty candidate list it returns the empty list. -/
theorem rerank_none_sorted_truncated (query : String) (candidates : List Candidate)
    (top_k : Int) (model : Option String) (env : RerankEnv) :
    (0 < top_k →
      (rerank query candidates "none" top_k model env).length =
          min top_k.toNat candidates.length ∧
      ∃ l : List Candidate, candidates.Perm l ∧
        l.Pairwise (fun a b => candLE a b = true) ∧
        (rerank query candidates "none" top_k model env).map candCore =
          (l.take top_k.toNat).map candCore) ∧
    ((top_k ≤ 0 ∨ candidates = []) → rerank query candidates "none" top_k model env = []) := by
  have hns : normalize_strategy "none" = ("none", false) := by decide
  constructor
  · intro hpos
    by_cases hc : candidates = []
    · subst hc
      have hr : rerank query [] "none" top_k model env = [] := by simp [rerank]
      rw [hr]
      exact ⟨by simp, [], List.Perm.refl _, List.Pairwise.nil, by simp⟩
    · have hguard : ¬ (top_k ≤ 0 ∨ candidates = []) := by
        rw [not_or]
        exact ⟨not_le.mpr hpos, hc⟩
      have hr : rerank query candidates "none" top_k model env =
          apply_rerank_result (stable_sort candidates) [] "none" (strOr model "none")
            false none top_k := by
        rw [rerank, if_neg hguard]
        simp [rerank_call, hns]
      refine ⟨?_, (stable_sort candidates).map Prod.snd, ?_, ?_, ?_⟩
      · rw [hr, apply_rerank_result_length, stable_sort_length]
      · have h1 : (stable_sort candidates).Perm candidates.enum :=
          perm_insertionSortB idxCandLE candidates.enum
        have h2 := h1.map Prod.snd
        rw [List.enum_map_snd] at h2
        exact h2.symm
      · exact List.pairwise_map.mpr
          (pairwise_insertionSortB idxCandLE idxCandLE_total idxCandLE_trans candidates.enum)
      · rw [hr, apply_rerank_result_map_core, List.map_take]
  · intro h
    rw [rerank, if_pos h]

/-- Witness for claim C3 at `top_k = 1` over two candidates, plus the
degenerate clause at `top_k = 0`. -/
theorem rerank_none_sorted_truncated_witness :
    (0 < (1 : Int) ∧
      (rerank "q" [candB, candA] "none" 1 none envEmpty).length =
        min (1 : Int).toNat [candB, candA].length) ∧
    rerank "q" [candB, candA] "none" 0 none envEmpty = [] :=
  ⟨⟨by decide,
      ((rerank_none_sorted_truncated "q" [candB, candA] 1 none envEmpty).1 (by decide)).1⟩,
    (rerank_none_sorted_truncated "q" [candB, candA] 0 none envEmpty).2 (Or.inl (by decide))⟩

/-! ## Claim C4 -/

/-- Counterexample for claim C4: the claim says a forced-fallback `rerank`
output equals the `strategy="none"` output except for the added fallback flag
and reason; but when no candidate has text and no model was passed, the
`rerank_model` detail also differs -- the fallback path records the default
reranker model name, the `strategy="none"` call records `"none"`. -/
theorem rerank_fallback_model_counterexample :
    (rerank "q" [candA] "bge_reranker" 1 none envEmpty).map
        (fun c => c.score_details.lookup "rerank_model") =
      [some (DetailVal.strv "BAAI/bge-reranker-large")] ∧
    (rerank "q" [candA] "none" 1 none envEmpty).map
        (fun c => c.score_details.lookup "rerank_model") =
      [some (DetailVal.strv "none")] ∧
    (rerank "q" [candA] "bge_reranker" 1 none envEmpty).map
        (fun c => c.score_details.lookup "rerank_fallback") =
      [some (DetailVal.boolv true)] := by
  decide

/-- Claim C4 (amended): whenever the oracle is forced to fail (reranker
construction raises, the reranker is unavailable, or no candidate has
extractable text so the oracle yields no scores), the `rerank` output equals
the output of the same call with strategy `"none"` up to the three
`score_details` keys `rerank_model`, `rerank_fallback` and
`rerank_fallback_reason` (`maskCand` blanks exactly those), and every output
candidate carries `rerank_fallback = true` with a non-empty
`rerank_fallback_reason`. -/
theorem rerank_forced_fallback (query : String) (candidates : List Candidate)
    (strategy : String) (top_k : Int) (model : Option String) (env : RerankEnv)
    (hstrat : (normalize_strategy strategy).1 ≠ "none")
    (hfail : (∃ e, env = RerankEnv.buildError e) ∨ env = RerankEnv.unavailable ∨
      (∃ f, env = RerankEnv.oracle f ∧ rerank_text_nodes candidates = [])) :
    (rerank query candidates strategy top_k model env).map maskCand =
      (rerank query candidates "none" top_k model env).map maskCand ∧
    ∀ c ∈ rerank query candidates strategy top_k model env,
      c.score_details.lookup "rerank_fallback" = some (DetailVal.boolv true) ∧
      ∃ s, c.score_details.lookup "rerank_fallback_reason" = some (DetailVal.strv s) ∧
        s ≠ "" := by
  have hns : normalize_strategy "none" = ("none", false) := by decide
  by_cases hguard : top_k ≤ 0 ∨ candidates = []
  · refine ⟨by rw [rerank, if_pos hguard, rerank, if_pos hguard], ?_⟩
    intro c hc
    rw [rerank, if_pos hguard] at hc
    simp at hc
  · have hbase : rerank query candidates "none" top_k model env =
        apply_rerank_result (stable_sort candidates) [] "none" (strOr model "none")
          false none top_k := by
      rw [rerank, if_neg hguard]
      simp [rerank_call, hns]
    rcases hfail with ⟨e, rfl⟩ | rfl | ⟨f, rfl, htext⟩
    · refine rerank_forced_fallback_aux query candidates strategy top_k model _
        (strOr model "none") ("rerank_import_error:" ++ e)
        (string_append_ne_empty_left _ _ (by decide)) ?_ hbase
      rw [rerank, if_neg hguard]
      simp [rerank_call, hstrat]
    · refine rerank_forced_fallback_aux query candidates strategy top_k model _
        (strOr model "none") "reranker_unavailable" (by decide) ?_ hbase
      rw [rerank, if_neg hguard]
      simp [rerank_call, hstrat]
    · refine rerank_forced_fallback_aux query candidates strategy top_k model _
        (strOr model (if (normalize_strategy strategy).1 = "bge_reranker" then
          strOr model "BAAI/bge-reranker-large" else strOr model "llm"))
        "rerank_no_text" (by decide) ?_ hbase
      rw [rerank, if_neg hguard]
      simp [rerank_call, hstrat, run_rerank_scores, htext]

/-- Witness for claim C4: a concrete unavailable-reranker call over two
candidates, compared against the `strategy="none"` call. -/
theorem rerank_forced_fallback_witness :
    (normalize_strategy "bge_reranker").1 ≠ "none" ∧
      (rerank "q" [candA, candB] "bge_reranker" 2 none .unavailable).map maskCand =
        (rerank "q" [candA, candB] "none" 2 none .unavailable).map maskCand :=
  ⟨by decide,
    (rerank_forced_fallback "q" [candA, candB] "bge_reranker" 2 none .unavailable
      (by decide) (Or.inr (Or.inl rfl))).1⟩

/-! ## Claim C5 -/

/-- Counterexample for claim C5: `normalize_offsets_to_page_local` is not
idempotent -- on a document whose page 2 starts at offset 1, a node with
absolute offsets 6..8 converts to 5..7 once and to 4..6 when the output is
converted again (the base is subtracted a second time). -/
theorem normalize_offsets_not_idempotent :
    (normalize_offsets_to_page_local
        (normalize_offsets_to_page_local [nodeP2] mdPages) mdPages).map
        (fun n => (n.start_offset, n.end_offset)) ≠
      (normalize_offsets_to_page_local [nodeP2] mdPages).map
        (fun n => (n.start_offset, n.end_offset)) := by
  decide

/-- Claim C5 (amended): the conversion is idempotent exactly in the harmless
cases -- when every node either has no usable page, a page outside the index,
or a page whose base offset is 0 (for example a marker-less document, which
indexes as `{1: 0}`), applying `normalize_offsets_to_page_local` to its own
output reproduces it exactly (in particular the `start_offset`/`end_offset`
values). -/
theorem normalize_offsets_idempotent_of_zero_base (nodes : List NodeRec) (markdown : String)
    (h : ∀ n ∈ nodes, ∀ p, n.page = some p →
      ∀ b, (build_page_start_index markdown).lookup p = some b → b = 0) :
    normalize_offsets_to_page_local (normalize_offsets_to_page_local nodes markdown) markdown =
      normalize_offsets_to_page_local nodes markdown := by
  have hne : (build_page_start_index markdown).isEmpty = false :=
    List.isEmpty_eq_false.mpr (build_page_start_index_ne_nil markdown)
  simp only [normalize_offsets_to_page_local, hne, Bool.false_eq_true, if_false, List.map_map]
  apply List.map_congr_left
  intro n hn
  exact convert_node_idem _ n (h n hn)

/-- Witness for claim C5 (amended) on a marker-less document, where the only
page base is 0. -/
theorem normalize_offsets_idempotent_witness :
    (∀ n ∈ [nodeP1], ∀ p, n.page = some p →
      ∀ b, (build_page_start_index "no markers").lookup p = some b → b = 0) ∧
    normalize_offsets_to_page_local
        (normalize_offsets_to_page_local [nodeP1] "no markers") "no markers" =
      normalize_offsets_to_page_local [nodeP1] "no markers" := by
  have h : ∀ n ∈ [nodeP1], ∀ p, n.page = some p →
      ∀ b, (build_page_start_index "no markers").lookup p = some b → b = 0 := by
    intro n hn p hp b hb
    have hn1 : n = nodeP1 := by simpa using hn
    subst hn1
    have hp1 : p = 1 := by
      have := hp.symm.trans (rfl : nodeP1.page = some 1)
      exact Option.some.inj this
    subst hp1
    have hl : (build_page_start_index "no markers").lookup (1 : Int) = some 0 := by decide
    rw [hl] at hb
    exact (Option.some.inj hb).symm
  exact ⟨h, normalize_offsets_idempotent_of_zero_base [nodeP1] "no markers" h⟩

/-! ## Claim C6 -/

/-- Claim C6: round-trip -- for every document text and node list, a node
whose page is in `build_page_start_index` with base `b` and whose absolute
offsets both lie at or after `b` converts to page-local offsets `s - b` and
`e - b`, and adding `b` back reproduces the original absolute pair exactly. -/
theorem normalize_offsets_round_trip (nodes : List NodeRec) (markdown : String)
    (i : Nat) (n : NodeRec) (p : Int) (b : Nat) (s e : Int)
    (hn : nodes[i]? = some n) (hp : n.page = some p)
    (hb : (build_page_start_index markdown).lookup p = some b)
    (hs : n.start_offset = some s) (he : n.end_offset = some e)
    (hsb : (b : Int) ≤ s) (heb : (b : Int) ≤ e) :
    ∃ n2, (normalize_offsets_to_page_local nodes markdown)[i]? = some n2 ∧
      n2.start_offset = some (s - b) ∧ n2.end_offset = some (e - b) ∧
      (s - b) + b = s ∧ (e - b) + b = e := by
  have hne : (build_page_start_index markdown).isEmpty = false :=
    List.isEmpty_eq_false.mpr (build_page_start_index_ne_nil markdown)
  refine ⟨convert_node (build_page_start_index markdown) n, ?_, ?_, ?_, ?_, ?_⟩
  · simp only [normalize_offsets_to_page_local, hne, Bool.false_eq_true, if_false,
      List.getElem?_map, hn]
    rfl
  · simp [convert_node, hp, hb, hs, max_eq_right (sub_nonneg.mpr hsb)]
  · simp [convert_node, hp, hb, he, max_eq_right (sub_nonneg.mpr heb)]
  · exact Int.sub_add_cancel s b
  · exact Int.sub_add_cancel e b

/-- Witness for claim C6: page 2 of `mdPages` starts at offset 1 and the node
with absolute offsets 6..8 round-trips through 5..7. -/
theorem normalize_offsets_round_trip_witness :
    nodeP2.page = some 2 ∧
    (build_page_start_index mdPages).lookup (2 : Int) = some 1 ∧
    nodeP2.start_offset = some 6 ∧ nodeP2.end_offset = some 8 ∧
    (∃ n2, (normalize_offsets_to_page_local [nodeP2] mdPages)[0]? = some n2 ∧
      n2.start_offset = some (6 - 1) ∧ n2.end_offset = some (8 - 1) ∧
      ((6 : Int) - 1) + 1 = 6 ∧ ((8 : Int) - 1) + 1 = 8) :=
  ⟨rfl, by decide, rfl, rfl,
    normalize_offsets_round_trip [nodeP2] mdPages 0 nodeP2 2 1 6 8 rfl rfl (by decide)
      rfl rfl (by decide) (by decide)⟩

/-! ## Claim C7 -/

/-- Claim C7 (spec-modelled grouping): on the fixed 12-hit fixture with
`max_documents = 2`, `max_nodes_per_document = 4`, `max_pages_per_document = 2`,
`group_evidence_hits` returns `document_ids = ["doc1", "doc2"]`; `doc3` is
entirely absent (its per-source document keys are exactly `doc1` under
`keyword` and `doc2` under `reranked`); the stats equal
`{total_hits_in: 12, total_hits_used: 6, dropped_missing_node_id: 1,
dropped_missing_document_id: 1, unknown_page_count: 1, deduped_node_count: 1}`;
and the `doc1`/page `"1"` bucket under the `keyword` source is `["n1", "n2"]`,
the first-seen two distinct node ids in input order. -/
theorem evidence_grouping_scenario :
    (group_evidence_hits gate_hits 2 4 2).document_ids = ["doc1", "doc2"] ∧
    (group_evidence_hits gate_hits 2 4 2).by_source.map
        (fun sb => (sb.1, sb.2.map Prod.fst)) =
      [("keyword", ["doc1"]), ("reranked", ["doc2"])] ∧
    (group_evidence_hits gate_hits 2 4 2).stats = ⟨12, 6, 1, 1, 1, 1⟩ ∧
    ((((group_evidence_hits gate_hits 2 4 2).by_source.lookup "keyword").bind
        (fun db => db.lookup "doc1")).bind (fun pgs => pgs.lookup "1")) = some ["n1", "n2"] := by
  decide

/-! ## Claim C8 -/

/-- Counterexample for claim C8: the claim says `capped` is true exactly when
`|KW| == configured_top_k` and `|GT| > |KW|`; but `_calc_metric` computes
`kw_total >= top_k`, so at `|KW| = 3`, `top_k = 2`, `|GT| = 4` the code sets
`capped = true` while the claimed condition (`3 == 2`) is false. -/
theorem calc_metric_capped_not_iff_eq :
    ¬ ((calcMetric ⟨"k", {"g1", "g2", "g3", "g4"}, {"a", "b", "c"}, 2⟩ 20).capped = true ↔
        (({"a", "b", "c"} : Finset String).card = 2 ∧
          ({"g1", "g2", "g3", "g4"} : Finset String).card >
            ({"a", "b", "c"} : Finset String).card)) := by
  decide

/-- Claim C8 (amended): the `capped` flag returned by `_calc_metric` is true
exactly when the keyword-hit count is greater than **or equal to** the
configured top-k and the ground-truth count is strictly greater than the
keyword-hit count. -/
theorem calc_metric_capped_iff (raw : MetricRaw) (n : Int) :
    (calcMetric raw n).capped = true ↔
      ((raw.kw_nodes.card : Int) ≥ raw.keyword_top_k ∧
        raw.gt_nodes.card > raw.kw_nodes.card) := by
  simp [calcMetric]

/-! ## Claim C9 -/

/-- Counterexample for claim C9: the claim says the fuzzy match succeeds
exactly when one normalized string is a substring of the other or they share
3 tokens; but `_fuzzy_match` returns `False` outright when either normalized
string is empty -- at `("", "abcd")` the substring condition holds (the empty
string is a substring of everything) yet the match fails. -/
theorem fuzzy_match_counterexample :
    ¬ (fuzzy_match "" "abcd" = true ↔
      ((norm_text "abcd").data <:+: (norm_text "").data ∨
       (norm_text "").data <:+: (norm_text "abcd").data ∨
       3 ≤ sharedTokenCount (norm_text "") (norm_text "abcd"))) := by
  decide

/-- Claim C9 (amended): for every slice text and reference quote,
`_fuzzy_match` succeeds exactly when **both** normalized strings are
non-empty and either one is a substring of the other, or the two share at
least 3 distinct whitespace-separated tokens of length at least 4. -/
theorem fuzzy_match_iff (slice_text ref_text : String) :
    fuzzy_match slice_text ref_text = true ↔
      (norm_text slice_text ≠ "" ∧ norm_text ref_text ≠ "" ∧
        ((norm_text ref_text).data <:+: (norm_text slice_text).data ∨
         (norm_text slice_text).data <:+: (norm_text ref_text).data ∨
         3 ≤ sharedTokenCount (norm_text slice_text) (norm_text ref_text))) := by
  unfold fuzzy_match
  by_cases ha : norm_text slice_text = ""
  · simp [ha]
  · by_cases hb : norm_text ref_text = ""
    · simp [ha, hb]
    · simp only [ha, hb, Bool.or_eq_true, decide_eq_true_eq]
      by_cases hio : (norm_text ref_text).data <:+: (norm_text slice_text).data ∨
          (norm_text slice_text).data <:+: (norm_text ref_text).data
      · simp [hio, ha, hb]
        tauto
      · simp [hio, ha, hb]
        tauto

/-! ## Claim C10 -/

/-- Claim C10: when both the ground-truth set and the keyword-hit set are
empty, `_calc_metric` returns `recall = null` and `precision = null` (not 0.0
or 1.0), `capped = false`, and empty `missing_sample`/`extra_sample`. -/
theorem calc_metric_both_empty
    (keyword : String) (top_k : Int) (n : Int) :
    (calcMetric ⟨keyword, ∅, ∅, top_k⟩ n).recallVal = none ∧
      (calcMetric ⟨keyword, ∅, ∅, top_k⟩ n).precision = none ∧
      (calcMetric ⟨keyword, ∅, ∅, top_k⟩ n).capped = false ∧
      (calcMetric ⟨keyword, ∅, ∅, top_k⟩ n).missing_sample = [] ∧
      (calcMetric ⟨keyword, ∅, ∅, top_k⟩ n).extra_sample = [] := by
  refine ⟨by simp [calcMetric], by simp [calcMetric], by simp [calcMetric], ?_, ?_⟩ <;>
    simp [calcMetric, metricSample]


end TiicLawChat
